import Mathlib

/-
Verification of the data-acquisition and search-synchronization engine of
react-pokemon-zukan, src/pages/PokemonList.tsx (the source view contains two
iterations of the component separated by a marker; the embedding below follows
the final iteration, which is the one with the localized-name-only filter, the
numeric sort, the composition handlers and the scroll-reset effect).

The component is written in TypeScript/React.  Its pure core is embedded
shallowly: JavaScript string primitives (trim, toLowerCase, includes,
parseInt) are modelled as structural functions on the character list of a
string, state updates are modelled as explicit state-passing functions, and
the background bulk-prefetch loop is modelled as a recursion over batch
offsets with an oracle for the network results of each batch.
-/

/-- Model of JavaScript String.prototype.trim: removes whitespace from both
ends of the string.  Structural (kernel-evaluable) counterpart of the
TypeScript calls searchTerm.trim() in PokemonList.tsx. -/
def jsTrim (s : String) : String :=
  ⟨((s.data.dropWhile Char.isWhitespace).reverse.dropWhile Char.isWhitespace).reverse⟩

/-- Model of JavaScript String.prototype.toLowerCase: lowercases each
character (ASCII case mapping; characters outside the ASCII letters, e.g.
Japanese katakana, are unchanged, as in the source's data). -/
def jsToLower (s : String) : String :=
  ⟨s.data.map Char.toLower⟩

/-- needle is a leading segment of hay. -/
def startsWithChars : List Char → List Char → Bool
  | [], _ => true
  | _ :: _, [] => false
  | a :: as, b :: bs => a == b && startsWithChars as bs

/-- needle occurs contiguously inside hay. -/
def hasSubstr (hay needle : List Char) : Bool :=
  match hay with
  | [] => needle.isEmpty
  | _ :: t => startsWithChars needle hay || hasSubstr t needle

/-- Model of JavaScript String.prototype.includes: sub occurs as a contiguous
substring of s. -/
def jsIncludes (s sub : String) : Bool :=
  hasSubstr s.data sub.data

/-- Accumulate the numeric value of the leading decimal digits; stops at the
first non-digit character. -/
def digitsVal : List Char → Nat → Nat
  | c :: cs, acc => if c.isDigit then digitsVal cs (10 * acc + (c.toNat - 48)) else acc
  | [], acc => acc

/-- Model of JavaScript parseInt on the sequence-number strings of the
catalog: value of the longest leading run of decimal digits (the catalog's
number fields are plain digit strings; parseInt's NaN result on digit-free
input is outside the modelled range and is mapped to 0). -/
def parseIntStr (s : String) : Nat :=
  digitsVal s.data 0

/-- One decorated catalog entry, the PokemonWithJapaneseName record of
src/api/pokemonWithJapaneseName as used by PokemonList.tsx: canonical name,
localized display name (japaneseName) and the numeric-string sequence number.
Fields of the record not read by the engine (sprite urls etc.) are omitted. -/
structure PokemonWithJapaneseName where
  name : String
  japaneseName : String
  number : String
deriving DecidableEq

/-- One page of the infinite query: the decorated entries of the page and the
continuation indicator (lastPage.next, null when exhausted). -/
structure Page where
  results : List PokemonWithJapaneseName
  next : Option String
deriving DecidableEq

/-- The filter predicate of the final filteredPokemon memo
(PokemonList.tsx, matchesName): the lowercased localized name contains the
lowercased-and-trimmed committed search text.  Canonical name and numeric id
are not consulted. -/
def matchesSearch (searchLower : String) (pokemon : PokemonWithJapaneseName) : Bool :=
  jsIncludes (jsToLower pokemon.japaneseName) searchLower

/-- Numeric sort key of an entry: parseInt(pokemon.number). -/
def numKey (pokemon : PokemonWithJapaneseName) : Nat :=
  parseIntStr pokemon.number

/-- Lexicographic order on index-tagged entries: by numeric sequence-number
key, ties by the tag (the position in the pre-sort list).  This is the order
realised by the stable Array.prototype.sort of the source with comparator
parseInt(a.number) - parseInt(b.number): ECMAScript sort is stable, so equal
keys keep their relative order. -/
def numLexLe (a b : Nat × PokemonWithJapaneseName) : Prop :=
  numKey a.2 < numKey b.2 ∨ (numKey a.2 = numKey b.2 ∧ a.1 ≤ b.1)

instance : DecidableRel numLexLe := fun a b => by
  unfold numLexLe; exact inferInstance

instance : IsTotal (Nat × PokemonWithJapaneseName) numLexLe :=
  ⟨fun a b => by unfold numLexLe; omega⟩

instance : IsTrans (Nat × PokemonWithJapaneseName) numLexLe :=
  ⟨fun a b c hab hbc => by unfold numLexLe at *; omega⟩

/-- Model of the stable JavaScript sort
.sort((a, b) => parseInt(a.number) - parseInt(b.number)) of the source:
tag each element with its position, sort by (key, position) lexicographically,
drop the tags. -/
def sortByNumberStable (l : List PokemonWithJapaneseName) : List PokemonWithJapaneseName :=
  ((l.enum).insertionSort numLexLe).map Prod.snd

/-- The filteredPokemon memo of the final iteration of PokemonList.tsx:
if the committed search text trims to empty, the flattened pages of the
infinite query (data.pages.flatMap(page => page.results), [] when data is
undefined); otherwise the bulk accumulator filtered by the localized-name
substring predicate and sorted by numeric sequence number. -/
def filteredPokemon (searchTerm : String) (pages : List Page)
    (allPokemonForSearch : List PokemonWithJapaneseName) : List PokemonWithJapaneseName :=
  if jsTrim searchTerm = "" then
    pages.flatMap Page.results
  else
    let searchLower := jsTrim (jsToLower searchTerm)
    sortByNumberStable (allPokemonForSearch.filter (fun pokemon => matchesSearch searchLower pokemon))

/-- The guard of the IntersectionObserver callback of PokemonList.tsx:
fetchNextPage() is invoked exactly when the sentinel is intersecting, a next
page exists, no page fetch is in flight, and searchTerm is falsy (the empty
string); the untrimmed searchTerm is tested. -/
def shouldFetchNext (isIntersecting hasNextPage isFetchingNextPage : Bool)
    (searchTerm : String) : Bool :=
  isIntersecting && hasNextPage && !isFetchingNextPage && searchTerm == ""

/-- The scroll-reset condition of the effect at the end of PokemonList.tsx:
with currentSearch = searchTerm.trim() and prevSearch the marker ref,
window.scrollTo(top) runs iff currentSearch is truthy (non-empty) and differs
from prevSearch. -/
def scrollResetFires (prevSearch searchTerm : String) : Bool :=
  !(jsTrim searchTerm == "") && !(jsTrim searchTerm == prevSearch)

/-- The scroll-reset effect run over a trace of committed search texts:
after each step the marker ref is set to the trimmed current text
(prevSearchTermRef.current = currentSearch). -/
def scrollResetRun (prevSearch : String) : List String → List Bool
  | [] => []
  | t :: ts => scrollResetFires prevSearch t :: scrollResetRun (jsTrim t) ts

/-- Input events reaching the search box: a change event (fired by React for
every input, also mid-composition, carrying the isComposing flag of the
underlying native event), compositionstart, and compositionend. -/
inductive SearchInputEvent where
  | change (value : String) (isComposing : Bool)
  | compositionStart (value : String)
  | compositionEnd (value : String)

/-- The search-input handlers of PokemonList.tsx: handleSearchChange sets
searchTerm to the event value unconditionally (it never reads the composition
flag), handleCompositionStart has an empty body, handleCompositionEnd sets
searchTerm to the current value.  searchTerm is the single search state and
the value the filteredPokemon memo observes. -/
def searchTermAfterEvent (searchTerm : String) : SearchInputEvent → String
  | .change value _ => value
  | .compositionStart _ => searchTerm
  | .compositionEnd value => value

/-- Sequence of batch start offsets of the bulk prefetch loop
(for (offset = 0; offset < totalCount; offset += batchSize) with
batchSize = 100). -/
def batchOffsets (totalCount offset : Nat) : List Nat :=
  if offset < totalCount then offset :: batchOffsets totalCount (offset + 100)
  else []
termination_by totalCount - offset
decreasing_by omega

/-- The body of fetchAllPokemon in PokemonList.tsx: strictly sequential
batches of 100, each awaited and appended to the local accumulator before the
next is issued.  fetchBatch is the oracle for
fetchPokemonListWithJapaneseNames(offset, 100): some results on success, none
on failure; a failing batch throws, aborting the loop (modelled as none). -/
def fetchAllLoop (fetchBatch : Nat → Option (List PokemonWithJapaneseName))
    (totalCount offset : Nat) (acc : List PokemonWithJapaneseName) :
    Option (List PokemonWithJapaneseName) :=
  if offset < totalCount then
    match fetchBatch offset with
    | some results => fetchAllLoop fetchBatch totalCount (offset + 100) (acc ++ results)
    | none => none
  else some acc
termination_by totalCount - offset
decreasing_by omega

/-- fetchAllPokemon of PokemonList.tsx: totalCount is the reported catalog
size clamped to 500 (Math.min(initialData.count, 500)); the loop starts at
offset 0 with an empty local accumulator. -/
def fetchAllPokemon (fetchBatch : Nat → Option (List PokemonWithJapaneseName))
    (count : Nat) : Option (List PokemonWithJapaneseName) :=
  fetchAllLoop fetchBatch (min count 500) 0 []

/-- The allPokemonForSearch state after the bulk run: the source calls
setAllPokemonForSearch(allPokemon) only after the whole loop has finished;
the catch branch of fetchAllPokemon only logs, so on any batch failure the
state keeps its initial value [] for the session. -/
def allPokemonForSearchAfterRun (fetchBatch : Nat → Option (List PokemonWithJapaneseName))
    (count : Nat) : List PokemonWithJapaneseName :=
  (fetchAllPokemon fetchBatch count).getD []

/-- Example entries used by concrete witnesses. -/
def bulbasaurEntry : PokemonWithJapaneseName := ⟨"bulbasaur", "Fushigidane", "1"⟩

def pikachuEntry : PokemonWithJapaneseName := ⟨"pikachu", "Pikachu", "25"⟩

def raichuEntry : PokemonWithJapaneseName := ⟨"raichu", "Raichu", "26"⟩

/-- Example pages used by concrete witnesses. -/
def examplePages : List Page := [⟨[bulbasaurEntry], some "url"⟩, ⟨[pikachuEntry], none⟩]

/-- C3: when the committed search text trims to empty the visible list is
exactly the flattened pages of the paged view cache in fetch order, with no
deduplication and no bulk-derived ordering; in particular clearing a
previously non-empty search restores this list. -/
theorem mode_switch_restores_paged_list (searchTerm : String) (pages : List Page)
    (allPokemonForSearch : List PokemonWithJapaneseName)
    (h : jsTrim searchTerm = "") :
    filteredPokemon searchTerm pages allPokemonForSearch = pages.flatMap Page.results := by
  simp only [filteredPokemon, if_pos h]

theorem mode_switch_restores_paged_list_witness :
    jsTrim "" = "" ∧
      filteredPokemon "" examplePages [raichuEntry] = examplePages.flatMap Page.results :=
  ⟨by decide, mode_switch_restores_paged_list "" examplePages [raichuEntry] (by decide)⟩

/-- C7: while the committed search text is non-empty, an intersection signal
produces no call to fetchNextPage: the observer guard tests searchTerm and
rejects every non-empty value, whatever the intersection and fetch state. -/
theorem scroll_suspended_during_search (searchTerm : String) (h : searchTerm ≠ "")
    (isIntersecting hasNextPage isFetchingNextPage : Bool) :
    shouldFetchNext isIntersecting hasNextPage isFetchingNextPage searchTerm = false := by
  simp [shouldFetchNext, h]

theorem scroll_suspended_during_search_witness :
    ("pika" : String) ≠ "" ∧ shouldFetchNext true true false "pika" = false :=
  ⟨by decide, scroll_suspended_during_search "pika" (by decide) true true false⟩

/-- C10: a search text that is non-empty but all whitespace puts the engine in
a mixed state: the visible list is the flattened paged cache (the filter
tests the trimmed text), yet intersection signals never trigger a page fetch
(the observer guard tests the untrimmed text), so infinite scroll is
suspended while the paged list is displayed. -/
theorem whitespace_search_mixed_state (searchTerm : String) (h1 : searchTerm ≠ "")
    (h2 : jsTrim searchTerm = "") (pages : List Page)
    (allPokemonForSearch : List PokemonWithJapaneseName)
    (isIntersecting hasNextPage isFetchingNextPage : Bool) :
    filteredPokemon searchTerm pages allPokemonForSearch = pages.flatMap Page.results ∧
      shouldFetchNext isIntersecting hasNextPage isFetchingNextPage searchTerm = false := by
  exact ⟨by simp only [filteredPokemon, if_pos h2], by simp [shouldFetchNext, h1]⟩

theorem whitespace_search_mixed_state_witness :
    (" " : String) ≠ "" ∧ jsTrim " " = "" ∧
      (filteredPokemon " " examplePages [raichuEntry] = examplePages.flatMap Page.results ∧
        shouldFetchNext true true false " " = false) :=
  ⟨by decide, by decide,
    whitespace_search_mixed_state " " (by decide) (by decide) examplePages [raichuEntry]
      true true false⟩

/-- C8 (code evaluation at the failing input): a change event fired during an
IME composition (isComposing = true) with a partially composed value updates
searchTerm, the value the filter observes, contradicting the claim that it is
updated only on commit events.  handleSearchChange never consults the
composition state and handleCompositionStart sets no flag. -/
theorem ime_change_updates_committed_text :
    searchTermAfterEvent "" (SearchInputEvent.change "fu" true) = "fu" ∧
      ("fu" : String) ≠ "" :=
  ⟨rfl, by decide⟩

/-- C9 counterexample: with the previous committed text already the non-empty
"pika", the keystroke extending the search to "pikac" fires the scroll reset
again, so the reset is not fired exactly once per new search on the
empty-to-non-empty transition: it fires on every keystroke that changes the
trimmed text. -/
theorem scroll_reset_counterexample :
    scrollResetRun "" ["pika", "pikac"] = [true, true] ∧ jsTrim "pika" ≠ "" := by
  decide

/-- C9 (amended): over any trace of committed texts, the scroll reset fires
at a step exactly when that step's trimmed text is non-empty and differs from
the previous step's trimmed text (the marker ref value); in particular it
does not refire on recomputations that leave the trimmed text unchanged, and
it does fire on every keystroke that changes it. -/
theorem scroll_reset_fires_on_change (prevSearch : String) (terms : List String) :
    scrollResetRun prevSearch terms =
        List.zipWith scrollResetFires (prevSearch :: terms.map jsTrim) terms ∧
      ∀ p t, scrollResetFires p t = (decide (jsTrim t ≠ "") && decide (jsTrim t ≠ p)) := by
  constructor
  · induction terms generalizing prevSearch with
    | nil => rfl
    | cons t ts ih =>
      simp only [scrollResetRun, List.map_cons, List.zipWith_cons_cons, ih (jsTrim t)]
  · intro p t
    simp only [scrollResetFires]
    by_cases h1 : jsTrim t = ""
    · simp [h1]
    · by_cases h2 : jsTrim t = p <;> simp [h1, h2]

/-- Dropping the tags of the stable sort does not change the multiset of
entries: membership in the sorted visible list is membership in the filtered
list. -/
theorem mem_sortByNumberStable {l : List PokemonWithJapaneseName}
    {a : PokemonWithJapaneseName} : a ∈ sortByNumberStable l ↔ a ∈ l := by
  unfold sortByNumberStable
  have hperm : List.Perm ((l.enum.insertionSort numLexLe).map Prod.snd) l := by
    have h := (List.perm_insertionSort numLexLe l.enum).map Prod.snd
    rwa [List.enum_map_snd] at h
  exact hperm.mem_iff

/-- In a list of tagged entries sorted by numLexLe whose tags are distinct,
position order coincides with the strict lexicographic order on
(numeric key, tag). -/
theorem sorted_nodup_strict_iff (T : List (Nat × PokemonWithJapaneseName))
    (hsort : T.Sorted numLexLe) (hnodup : (T.map Prod.fst).Nodup) :
    ∀ (i j : Fin T.length),
      i < j ↔ (numKey (T.get i).2 < numKey (T.get j).2 ∨
        (numKey (T.get i).2 = numKey (T.get j).2 ∧ (T.get i).1 < (T.get j).1)) := by
  have hinj : ∀ (a b : Fin T.length), (T.get a).1 = (T.get b).1 → a = b := by
    intro a b heq
    have ha : (a : Nat) < (T.map Prod.fst).length := by
      rw [List.length_map]; exact a.isLt
    have hb : (b : Nat) < (T.map Prod.fst).length := by
      rw [List.length_map]; exact b.isLt
    have h1 : (T.map Prod.fst).get ⟨(a : Nat), ha⟩ = (T.get a).1 := by
      simp [List.get_eq_getElem]
    have h2 : (T.map Prod.fst).get ⟨(b : Nat), hb⟩ = (T.get b).1 := by
      simp [List.get_eq_getElem]
    have h3 : (⟨(a : Nat), ha⟩ : Fin (T.map Prod.fst).length) = ⟨(b : Nat), hb⟩ :=
      hnodup.get_inj_iff.mp (h1.trans (heq.trans h2.symm))
    exact Fin.ext (by simpa using congrArg Fin.val h3)
  intro i j
  constructor
  · intro hij
    have hle := hsort.rel_get_of_lt hij
    have hne : (T.get i).1 ≠ (T.get j).1 := by
      intro heq
      have h := hinj i j heq
      rw [h] at hij
      exact lt_irrefl _ hij
    unfold numLexLe at hle
    omega
  · intro hstrict
    rcases Nat.lt_trichotomy (i : Nat) (j : Nat) with hlt | heq | hgt
    · exact Fin.lt_def.mpr hlt
    · exfalso
      have h : i = j := Fin.ext heq
      rw [h] at hstrict
      omega
    · exfalso
      have hle := hsort.rel_get_of_lt (Fin.lt_def.mpr hgt)
      unfold numLexLe at hle
      omega

/-- The index-tagged matched entries of the bulk accumulator, sorted: tag the
matched entries with their position among the matches (filter preserves the
accumulator's original order, so tag order is original accumulator order) and
sort by (numeric key, tag). -/
def sortedTagged (searchTerm : String) (bulk : List PokemonWithJapaneseName) :
    List (Nat × PokemonWithJapaneseName) :=
  ((bulk.filter (fun pokemon =>
    matchesSearch (jsTrim (jsToLower searchTerm)) pokemon)).enum).insertionSort numLexLe

/-- C1 (amended: the committed text must trim non-empty, not merely be
non-empty): for a committed search text whose trimmed form is non-empty,
an entry of the bulk accumulator appears in the visible list iff its
lowercased localized display name contains the lowercased-and-trimmed search
text as a substring; canonical name and numeric id play no role. -/
theorem search_filters_by_localized_name (searchTerm : String) (pages : List Page)
    (allPokemonForSearch : List PokemonWithJapaneseName) (h : jsTrim searchTerm ≠ "")
    (entry : PokemonWithJapaneseName) (hmem : entry ∈ allPokemonForSearch) :
    entry ∈ filteredPokemon searchTerm pages allPokemonForSearch ↔
      matchesSearch (jsTrim (jsToLower searchTerm)) entry = true := by
  simp only [filteredPokemon, if_neg h]
  rw [mem_sortByNumberStable, List.mem_filter]
  simp [hmem]

theorem search_filters_by_localized_name_witness :
    jsTrim "Pika" ≠ "" ∧ pikachuEntry ∈ [pikachuEntry, raichuEntry] ∧
      (pikachuEntry ∈ filteredPokemon "Pika" examplePages [pikachuEntry, raichuEntry] ↔
        matchesSearch (jsTrim (jsToLower "Pika")) pikachuEntry = true) :=
  ⟨by decide, by decide,
    search_filters_by_localized_name "Pika" examplePages [pikachuEntry, raichuEntry]
      (by decide) pikachuEntry (by decide)⟩

/-- C1 counterexample to the claim as stated: the committed text " " is
non-empty and every display name contains its lowercased-and-trimmed form ""
as a substring, yet the entry does not appear in the visible list, because
the trim-empty branch shows the (here empty) paged cache instead of the bulk
accumulator. -/
theorem search_correctness_counterexample :
    ¬ (bulbasaurEntry ∈ filteredPokemon " " [] [bulbasaurEntry] ↔
        matchesSearch (jsTrim (jsToLower " ")) bulbasaurEntry = true) := by
  decide

/-- C2 (amended: the committed text must trim non-empty, and the tie case is
the stable one the claim names): for a committed search text whose trimmed
form is non-empty, the visible list is the tag-stripped sorted tagged list,
and in that sorted list an entry precedes another iff its numeric sequence
number is smaller, or the numbers are equal and it comes first in the bulk
accumulator's original order (the tag order). -/
theorem sort_correctness (searchTerm : String) (bulk : List PokemonWithJapaneseName)
    (h : jsTrim searchTerm ≠ "") :
    (∀ pages, filteredPokemon searchTerm pages bulk =
        (sortedTagged searchTerm bulk).map Prod.snd) ∧
      ∀ (i j : Fin (sortedTagged searchTerm bulk).length),
        i < j ↔ (numKey ((sortedTagged searchTerm bulk).get i).2 <
            numKey ((sortedTagged searchTerm bulk).get j).2 ∨
          (numKey ((sortedTagged searchTerm bulk).get i).2 =
              numKey ((sortedTagged searchTerm bulk).get j).2 ∧
            ((sortedTagged searchTerm bulk).get i).1 <
              ((sortedTagged searchTerm bulk).get j).1)) := by
  constructor
  · intro pages
    simp only [filteredPokemon, if_neg h, sortByNumberStable, sortedTagged]
  · have hsort : (sortedTagged searchTerm bulk).Sorted numLexLe := by
      unfold sortedTagged
      exact List.sorted_insertionSort numLexLe _
    have hnodup : ((sortedTagged searchTerm bulk).map Prod.fst).Nodup := by
      unfold sortedTagged
      have hmap := (List.perm_insertionSort numLexLe
        ((bulk.filter (fun pokemon =>
          matchesSearch (jsTrim (jsToLower searchTerm)) pokemon)).enum)).map Prod.fst
      exact hmap.nodup_iff.mpr (List.nodup_enum_map_fst _)
    exact sorted_nodup_strict_iff _ hsort hnodup

theorem sort_correctness_witness :
    jsTrim "i" ≠ "" ∧
      ((∀ pages, filteredPokemon "i" pages [pikachuEntry, raichuEntry, bulbasaurEntry] =
          (sortedTagged "i" [pikachuEntry, raichuEntry, bulbasaurEntry]).map Prod.snd) ∧
        ∀ (i j : Fin (sortedTagged "i" [pikachuEntry, raichuEntry, bulbasaurEntry]).length),
          i < j ↔ (numKey ((sortedTagged "i" [pikachuEntry, raichuEntry, bulbasaurEntry]).get i).2 <
              numKey ((sortedTagged "i" [pikachuEntry, raichuEntry, bulbasaurEntry]).get j).2 ∨
            (numKey ((sortedTagged "i" [pikachuEntry, raichuEntry, bulbasaurEntry]).get i).2 =
                numKey ((sortedTagged "i" [pikachuEntry, raichuEntry, bulbasaurEntry]).get j).2 ∧
              ((sortedTagged "i" [pikachuEntry, raichuEntry, bulbasaurEntry]).get i).1 <
                ((sortedTagged "i" [pikachuEntry, raichuEntry, bulbasaurEntry]).get j).1))) :=
  ⟨by decide, sort_correctness "i" [pikachuEntry, raichuEntry, bulbasaurEntry] (by decide)⟩

/-- C2 counterexample to the claim as stated: with the non-empty committed
text " " (which trims to empty) the visible list is the flattened paged cache,
where raichu (number 26) precedes pikachu (number 25) although both entries
match the trimmed needle "" and 26 is not at most 25 — the claimed ordering
iff fails for this non-empty committed text. -/
theorem sort_correctness_counterexample :
    filteredPokemon " " [⟨[raichuEntry, pikachuEntry], none⟩] [pikachuEntry, raichuEntry] =
        [raichuEntry, pikachuEntry] ∧
      matchesSearch (jsTrim (jsToLower " ")) raichuEntry = true ∧
      matchesSearch (jsTrim (jsToLower " ")) pikachuEntry = true ∧
      ¬ numKey raichuEntry ≤ numKey pikachuEntry := by
  decide

/-- Unrolling of the strictly sequential bulk loop: when every batch in the
remaining schedule succeeds, the loop returns the accumulator followed by the
batches' results concatenated in request (offset) order. -/
theorem fetchAllLoop_eq (fetchBatch : Nat → Option (List PokemonWithJapaneseName))
    (totalCount : Nat) (n : Nat) :
    ∀ (offset : Nat) (acc : List PokemonWithJapaneseName), totalCount - offset ≤ n →
      (∀ o ∈ batchOffsets totalCount offset, (fetchBatch o).isSome) →
      fetchAllLoop fetchBatch totalCount offset acc =
        some (acc ++ (batchOffsets totalCount offset).flatMap (fun o => (fetchBatch o).getD [])) := by
  induction n with
  | zero =>
    intro offset acc hn hall
    have hlt : ¬ offset < totalCount := by omega
    rw [fetchAllLoop.eq_def, batchOffsets.eq_def]
    simp [hlt]
  | succ n ih =>
    intro offset acc hn hall
    by_cases hlt : offset < totalCount
    · rw [fetchAllLoop.eq_def, batchOffsets.eq_def]
      simp only [if_pos hlt]
      have hmem : offset ∈ batchOffsets totalCount offset := by
        rw [batchOffsets.eq_def]; simp [hlt]
      obtain ⟨b, hb⟩ := Option.isSome_iff_exists.mp (hall offset hmem)
      rw [hb]
      have htail : ∀ o ∈ batchOffsets totalCount (offset + 100), (fetchBatch o).isSome := by
        intro o ho
        apply hall
        rw [batchOffsets.eq_def]
        simp only [if_pos hlt]
        exact List.mem_cons_of_mem _ ho
      show fetchAllLoop fetchBatch totalCount (offset + 100) (acc ++ b) = _
      rw [ih (offset + 100) (acc ++ b) (by omega) htail]
      simp [hb, List.append_assoc]
    · rw [fetchAllLoop.eq_def, batchOffsets.eq_def]
      simp [hlt]

/-- C4: for every schedule of successful bulk batches, the accumulator after
the run equals the concatenation of the batches' entries in request order;
the loop is strictly sequential by construction (each batch is awaited and
appended before the next offset is issued). -/
theorem bulk_append_order (fetchBatch : Nat → Option (List PokemonWithJapaneseName))
    (count : Nat)
    (hok : ∀ o ∈ batchOffsets (min count 500) 0, (fetchBatch o).isSome) :
    fetchAllPokemon fetchBatch count =
        some ((batchOffsets (min count 500) 0).flatMap (fun o => (fetchBatch o).getD [])) ∧
      allPokemonForSearchAfterRun fetchBatch count =
        (batchOffsets (min count 500) 0).flatMap (fun o => (fetchBatch o).getD []) := by
  have h := fetchAllLoop_eq fetchBatch (min count 500) (min count 500) 0 [] (by omega) hok
  constructor
  · unfold fetchAllPokemon
    rw [h]
    simp
  · unfold allPokemonForSearchAfterRun fetchAllPokemon
    rw [h]
    simp

theorem bulk_append_order_witness :
    (∀ o ∈ batchOffsets (min 150 500) 0, ((fun _ : Nat => some [pikachuEntry]) o).isSome) ∧
      (fetchAllPokemon (fun _ : Nat => some [pikachuEntry]) 150 =
          some ((batchOffsets (min 150 500) 0).flatMap
            (fun o => ((fun _ : Nat => some [pikachuEntry]) o).getD [])) ∧
        allPokemonForSearchAfterRun (fun _ : Nat => some [pikachuEntry]) 150 =
          (batchOffsets (min 150 500) 0).flatMap
            (fun o => ((fun _ : Nat => some [pikachuEntry]) o).getD [])) :=
  ⟨fun _ _ => rfl, bulk_append_order (fun _ : Nat => some [pikachuEntry]) 150 (fun _ _ => rfl)⟩

/-- C5 counterexample to the claim as stated: the first batch (offset 0)
succeeds with one entry and the second batch (offset 100) fails; the claim
says search thereafter operates over the partial accumulator containing that
entry, but the accumulator state is only assigned after the whole loop
succeeds, so it stays empty. -/
theorem bulk_failure_counterexample :
    allPokemonForSearchAfterRun
        (fun o => if o = 0 then some [pikachuEntry] else none) 200 = [] ∧
      (fun o => if o = 0 then some [pikachuEntry] else none) 0 = some [pikachuEntry] ∧
      ([pikachuEntry] : List PokemonWithJapaneseName) ≠ [] := by
  refine ⟨?_, rfl, by decide⟩
  simp [allPokemonForSearchAfterRun, fetchAllPokemon, fetchAllLoop]

/-- C5 (amended: the surviving accumulator is empty, not partial): if any
bulk batch fails, the run aborts without retry and the accumulator is never
assigned, so it stays empty for the session and search thereafter operates
over an empty dataset, returning the empty list for every committed search
text whose trimmed form is non-empty. -/
theorem bulk_failure_leaves_accumulator_empty
    (fetchBatch : Nat → Option (List PokemonWithJapaneseName)) (count : Nat)
    (searchTerm : String) (pages : List Page)
    (hfail : fetchAllPokemon fetchBatch count = none)
    (hterm : jsTrim searchTerm ≠ "") :
    allPokemonForSearchAfterRun fetchBatch count = [] ∧
      filteredPokemon searchTerm pages (allPokemonForSearchAfterRun fetchBatch count) = [] := by
  have h1 : allPokemonForSearchAfterRun fetchBatch count = [] := by
    unfold allPokemonForSearchAfterRun
    rw [hfail]
    rfl
  refine ⟨h1, ?_⟩
  rw [h1]
  simp only [filteredPokemon, if_neg hterm]
  rfl

theorem bulk_failure_leaves_accumulator_empty_witness :
    fetchAllPokemon (fun _ : Nat => none) 100 = none ∧ jsTrim "x" ≠ "" ∧
      (allPokemonForSearchAfterRun (fun _ : Nat => none) 100 = [] ∧
        filteredPokemon "x" examplePages (allPokemonForSearchAfterRun (fun _ : Nat => none) 100) = []) :=
  ⟨by simp [fetchAllPokemon, fetchAllLoop], by decide,
    bulk_failure_leaves_accumulator_empty (fun _ : Nat => none) 100 "x" examplePages
      (by simp [fetchAllPokemon, fetchAllLoop]) (by decide)⟩

/-- State of the paged view cache: the fetched pages in fetch order, the next
cursor offset, whether a page fetch is in flight, and whether the last page
reported more data. -/
structure PagedViewState where
  pages : List Page
  nextOffset : Nat
  inFlight : Bool
  hasMore : Bool
deriving DecidableEq

/-- Modelled from the spec: the fetchNext operation of the Paged View Cache
(spec section 4.3) is realised by the external infinite-query library whose
implementation is not among the sources under src/ (only its call sites are).
Per the spec, a call while a fetch is in flight, or with no more data
available, is a no-op that is not queued; otherwise the fetch is marked in
flight.  The Bool records whether a network call was issued. -/
def fetchNextStart (s : PagedViewState) : PagedViewState × Bool :=
  if s.inFlight || !s.hasMore then (s, false)
  else ({ s with inFlight := true }, true)

/-- Modelled from the spec: settling of the single in-flight page fetch (spec
section 4.3): the fetched page is appended to the cache, the cursor advances
by the page size (20, from getNextPageParam's pages.length * 20), the
in-flight flag clears, and availability is updated from the page's
continuation indicator. -/
def fetchNextSettle (s : PagedViewState) (p : Page) : PagedViewState :=
  { pages := s.pages ++ [p], nextOffset := s.nextOffset + 20,
    inFlight := false, hasMore := p.next.isSome }

/-- C6: calling fetchNext a second time while the first call's fetch is in
flight issues exactly one network call (the first call reports true, the
second false), the second call is a no-op that is not queued (it leaves the
state unchanged), and settling the single fetch appends exactly one page. -/
theorem fetchNext_idempotent (s : PagedViewState) (p : Page)
    (h1 : s.inFlight = false) (h2 : s.hasMore = true) :
    (fetchNextStart s).2 = true ∧
      (fetchNextStart (fetchNextStart s).1).2 = false ∧
      (fetchNextStart (fetchNextStart s).1).1 = (fetchNextStart s).1 ∧
      (fetchNextSettle (fetchNextStart s).1 p).pages = s.pages ++ [p] := by
  simp [fetchNextStart, fetchNextSettle, h1, h2]

theorem fetchNext_idempotent_witness :
    (PagedViewState.mk [] 0 false true).inFlight = false ∧
      (PagedViewState.mk [] 0 false true).hasMore = true ∧
      ((fetchNextStart (PagedViewState.mk [] 0 false true)).2 = true ∧
        (fetchNextStart (fetchNextStart (PagedViewState.mk [] 0 false true)).1).2 = false ∧
        (fetchNextStart (fetchNextStart (PagedViewState.mk [] 0 false true)).1).1 =
          (fetchNextStart (PagedViewState.mk [] 0 false true)).1 ∧
        (fetchNextSettle (fetchNextStart (PagedViewState.mk [] 0 false true)).1
            (Page.mk [pikachuEntry] none)).pages =
          (PagedViewState.mk [] 0 false true).pages ++ [Page.mk [pikachuEntry] none]) :=
  ⟨rfl, rfl,
    fetchNext_idempotent (PagedViewState.mk [] 0 false true) (Page.mk [pikachuEntry] none) rfl rfl⟩
